import Mathlib

/-!
Verification of the freight-matching service (server.py, models.py).

The embedding models the rows of the three tables, the SQL predicate that
the find_matches endpoint builds (including SQL three-valued logic, which
matters for the IN-list on the route columns), the ORDER BY / OFFSET /
LIMIT pipeline, the next-cursor headers, the client-side keyset paging
loop, and the create_freight_search endpoint with its cross-field
validators.  Timestamps and dates are modelled as integers (any totally
ordered clock), prices as rationals.
-/

namespace FTC

/-- Three-valued SQL boolean: TRUE, FALSE or NULL/UNKNOWN. -/
inductive SQLB where
  | tru : SQLB
  | fls : SQLB
  | unk : SQLB
deriving Repr, DecidableEq

/-- Kleene conjunction, the semantics of SQL AND. -/
def SQLB.and : SQLB → SQLB → SQLB
  | .fls, _ => .fls
  | _, .fls => .fls
  | .tru, .tru => .tru
  | _, _ => .unk

/-- Kleene disjunction, the semantics of SQL OR. -/
def SQLB.or : SQLB → SQLB → SQLB
  | .tru, _ => .tru
  | _, .tru => .tru
  | .fls, .fls => .fls
  | _, _ => .unk

/-- A WHERE clause keeps a row only when its condition is TRUE (a NULL
result filters the row out, like FALSE). -/
def SQLB.isTrue : SQLB → Bool
  | .tru => true
  | _ => false

/-- SQL equality over nullable operands: comparing with NULL is UNKNOWN. -/
def sqlEq {α : Type} [DecidableEq α] : Option α → Option α → SQLB
  | some x, some y => if x = y then .tru else .fls
  | _, _ => .unk

/-- SQL non-strict comparison over nullable operands. -/
def sqlLe {α : Type} [LinearOrder α] : Option α → Option α → SQLB
  | some x, some y => if x ≤ y then .tru else .fls
  | _, _ => .unk

/-- SQL strict comparison over nullable operands. -/
def sqlLt {α : Type} [LinearOrder α] : Option α → Option α → SQLB
  | some x, some y => if x < y then .tru else .fls
  | _, _ => .unk

/-- SQL reversed non-strict comparison over nullable operands. -/
def sqlGe {α : Type} [LinearOrder α] : Option α → Option α → SQLB
  | some x, some y => if y ≤ x then .tru else .fls
  | _, _ => .unk

/-- SQL IS NULL test; never UNKNOWN. -/
def sqlIsNull {α : Type} : Option α → SQLB
  | none => .tru
  | some _ => .fls

/-- SQL IN-list: col IN (e1, …, en) abbreviates col = e1 OR … OR col = en,
with NULL propagation; an empty list gives FALSE. -/
def sqlIn {α : Type} [DecidableEq α] (col : Option α) (vals : List (Option α)) : SQLB :=
  vals.foldr (fun v acc => (sqlEq col v).or acc) SQLB.fls

/-- Row of the users table (models.py, class User). -/
structure User where
  id : Nat
  name : String
  surname : String
  email : String
deriving Repr, DecidableEq

/-- Row of the freights table (models.py, class Freight); every column is
NOT NULL. -/
structure Freight where
  id : Nat
  price : ℚ
  pickup_code : Int
  delivery_code : Int
  pickup_date : Int
  delivery_date : Int
deriving Repr, DecidableEq

/-- Row of the freight_searches table (models.py, class FreightSearch); the
eight criteria columns are nullable, created_at is the server-assigned
NOT NULL timestamp. -/
structure FreightSearch where
  id : Nat
  user_id : Nat
  min_price : Option ℚ
  max_price : Option ℚ
  pickup_code : Option Int
  delivery_code : Option Int
  pickup_date_from : Option Int
  pickup_date_to : Option Int
  delivery_date_from : Option Int
  delivery_date_to : Option Int
  created_at : Int
deriving Repr, DecidableEq

/-- Route conditions (server.py lines 148-151): the code writes
pickup_code IN (freight.pickup_code, NULL), with a literal NULL inside the
IN-list, and likewise for delivery_code. -/
def route_conds (f : Freight) : List (FreightSearch → SQLB) :=
  [ fun s => sqlIn s.pickup_code [some f.pickup_code, none],
    fun s => sqlIn s.delivery_code [some f.delivery_code, none] ]

/-- Price conditions (server.py lines 154-157). -/
def price_conds (f : Freight) : List (FreightSearch → SQLB) :=
  [ fun s => (sqlIsNull s.min_price).or (sqlLe s.min_price (some f.price)),
    fun s => (sqlIsNull s.max_price).or (sqlGe s.max_price (some f.price)) ]

/-- Pickup-window conditions (server.py lines 158-161). -/
def pickup_conds (f : Freight) : List (FreightSearch → SQLB) :=
  [ fun s => (sqlIsNull s.pickup_date_from).or (sqlLe s.pickup_date_from (some f.pickup_date)),
    fun s => (sqlIsNull s.pickup_date_to).or (sqlGe s.pickup_date_to (some f.pickup_date)) ]

/-- Delivery-window conditions (server.py lines 162-165). -/
def delivery_conds (f : Freight) : List (FreightSearch → SQLB) :=
  [ fun s => (sqlIsNull s.delivery_date_from).or (sqlLe s.delivery_date_from (some f.delivery_date)),
    fun s => (sqlIsNull s.delivery_date_to).or (sqlGe s.delivery_date_to (some f.delivery_date)) ]

/-- All match conditions, in the order they are assembled (server.py
line 167). -/
def matchConds (f : Freight) : List (FreightSearch → SQLB) :=
  route_conds f ++ price_conds f ++ pickup_conds f ++ delivery_conds f

/-- Row filter induced by the WHERE clause over the match conditions: the
row is kept when every condition is TRUE. -/
def matchesRow (f : Freight) (s : FreightSearch) : Bool :=
  (matchConds f).all fun c => (c s).isTrue

/-- Keyset condition added when both cursor halves are supplied
(server.py lines 171-177): created_at < before_ts OR
(created_at = before_ts AND id < before_id). -/
def keyset_cond (ts : Int) (i : Nat) (s : FreightSearch) : SQLB :=
  (sqlLt (some s.created_at) (some ts)).or
    ((sqlEq (some s.created_at) (some ts)).and (sqlLt (some s.id) (some i)))

/-- ORDER BY created_at DESC, id DESC: row a precedes row b when a's
(created_at, id) key is lexicographically at least b's. -/
def fsLE (a b : FreightSearch) : Prop :=
  b.created_at < a.created_at ∨ (b.created_at = a.created_at ∧ b.id ≤ a.id)

/-- Strict version of the output order: a's key is lexicographically
greater than b's. -/
def fsLT (a b : FreightSearch) : Prop :=
  b.created_at < a.created_at ∨ (b.created_at = a.created_at ∧ b.id < a.id)

instance decFsLE : DecidableRel fsLE := fun a b =>
  inferInstanceAs (Decidable (b.created_at < a.created_at ∨
    (b.created_at = a.created_at ∧ b.id ≤ a.id)))

instance decFsLT : DecidableRel fsLT := fun a b =>
  inferInstanceAs (Decidable (b.created_at < a.created_at ∨
    (b.created_at = a.created_at ∧ b.id < a.id)))

instance : IsTotal FreightSearch fsLE :=
  ⟨fun a b => by unfold fsLE; omega⟩

instance : IsTrans FreightSearch fsLE :=
  ⟨fun a b c hab hbc => by unfold fsLE at hab hbc ⊢; omega⟩

instance : IsAntisymm FreightSearch fsLT :=
  ⟨fun a b hab hba => False.elim (by unfold fsLT at hab hba; omega)⟩

/-- Matching rows of the store in the ORDER BY (created_at DESC, id DESC)
order, with no cursor and no paging applied. -/
def sortedMatches (f : Freight) (searches : List FreightSearch) : List FreightSearch :=
  List.insertionSort fsLE (searches.filter (matchesRow f))

/-- Embedding of the query run by find_matches (server.py lines 147-188):
WHERE over the match conditions plus, when both cursor halves are present,
the keyset condition; ORDER BY created_at DESC, id DESC; then OFFSET rows
are skipped and LIMIT rows returned. -/
def find_matches_core (f : Freight) (searches : List FreightSearch)
    (limit offset : Nat) (before_ts : Option Int) (before_id : Option Nat) :
    List FreightSearch :=
  let conds :=
    match before_ts, before_id with
    | some ts, some i => matchConds f ++ [keyset_cond ts i]
    | _, _ => matchConds f
  let filtered := searches.filter fun s => conds.all fun c => (c s).isTrue
  let sorted := List.insertionSort fsLE filtered
  (sorted.drop offset).take limit

/-- Database state visible to the endpoints. -/
structure DB where
  users : List User
  freights : List Freight
  searches : List FreightSearch
deriving Repr, DecidableEq

/-- Failure taxonomy of the endpoints: HTTP 404 and HTTP 422. -/
inductive Err where
  | notFound : Err
  | invalidArgument : Err
deriving Repr, DecidableEq

/-- Next-cursor headers (server.py lines 190-195): emitted exactly when the
page holds exactly limit rows, carrying the last row's (created_at, id). -/
def nextCursor (rows : List FreightSearch) (limit : Nat) : Option (Int × Nat) :=
  if rows.length = limit then
    rows.getLast?.map fun last => (last.created_at, last.id)
  else none

/-- Embedding of the find_matches endpoint (server.py lines 131-197):
primary-key lookup of the freight (404 when absent), the paged query, and
the X-Next-Before-Ts / X-Next-Before-Id headers. -/
def find_matches (db : DB) (freight_id : Nat) (limit offset : Nat)
    (before_ts : Option Int) (before_id : Option Nat) :
    Except Err (List FreightSearch × Option (Int × Nat)) :=
  match db.freights.find? (fun fr => fr.id == freight_id) with
  | none => .error .notFound
  | some f =>
    let rows := find_matches_core f db.searches limit offset before_ts before_id
    .ok (rows, nextCursor rows limit)

/-- Input schema FreightSearchCreate (server.py lines 43-81). -/
structure SearchInput where
  user_id : Nat
  min_price : Option ℚ
  max_price : Option ℚ
  pickup_code : Option Int
  delivery_code : Option Int
  pickup_date_from : Option Int
  pickup_date_to : Option Int
  delivery_date_from : Option Int
  delivery_date_to : Option Int
deriving Repr, DecidableEq

/-- Cross-field validators on FreightSearchBase (server.py lines 55-77):
the input is rejected when max_price < min_price, or
pickup_date_to < pickup_date_from, or delivery_date_to < delivery_date_from,
in each case with both fields present. -/
def violatesInvariant (inp : SearchInput) : Bool :=
  (match inp.min_price, inp.max_price with
   | some mn, some mx => decide (mx < mn)
   | _, _ => false) ||
  (match inp.pickup_date_from, inp.pickup_date_to with
   | some a, some b => decide (b < a)
   | _, _ => false) ||
  (match inp.delivery_date_from, inp.delivery_date_to with
   | some a, some b => decide (b < a)
   | _, _ => false)

/-- Embedding of the create_freight_search endpoint (server.py lines
113-122): schema validation runs while the request is parsed, before the
handler body; then the user lookup (404); then the single-row insert.  The
id and created_at are server-assigned and passed as parameters.  The second
component is the database state after the call. -/
def create_freight_search (db : DB) (inp : SearchInput) (newId : Nat) (now : Int) :
    Except Err FreightSearch × DB :=
  if violatesInvariant inp then (.error .invalidArgument, db)
  else
    match db.users.find? (fun u => u.id == inp.user_id) with
    | none => (.error .notFound, db)
    | some _ =>
      let row : FreightSearch :=
        { id := newId, user_id := inp.user_id,
          min_price := inp.min_price, max_price := inp.max_price,
          pickup_code := inp.pickup_code, delivery_code := inp.delivery_code,
          pickup_date_from := inp.pickup_date_from, pickup_date_to := inp.pickup_date_to,
          delivery_date_from := inp.delivery_date_from, delivery_date_to := inp.delivery_date_to,
          created_at := now }
      (.ok row, { db with searches := db.searches ++ [row] })

/-- Client keyset-paging loop: call find_matches_core with no cursor, then
repeatedly follow the (created_at, id) pair of the last row — the value the
endpoint returns in its next-cursor headers — while pages come back with
exactly limit rows; fuel bounds the number of round trips. -/
def paginate (f : Freight) (searches : List FreightSearch) (L : Nat) :
    Nat → Option (Int × Nat) → List FreightSearch
  | 0, _ => []
  | fuel + 1, cur =>
    let rows := find_matches_core f searches L 0 (cur.map Prod.fst) (cur.map Prod.snd)
    match nextCursor rows L with
    | some c => rows ++ paginate f searches L fuel (some c)
    | none => rows

/-- Strictly-before-the-cursor relation of the keyset continuation. -/
def beforeKey (s : FreightSearch) (c : Int × Nat) : Prop :=
  s.created_at < c.1 ∨ (s.created_at = c.1 ∧ s.id < c.2)

instance decBeforeKey (s : FreightSearch) (c : Int × Nat) : Decidable (beforeKey s c) :=
  inferInstanceAs (Decidable (s.created_at < c.1 ∨ (s.created_at = c.1 ∧ s.id < c.2)))

/-- Modelled from the spec: the intended match predicate of §4.1 (Matching
Predicate Builder), whose every conjunct is IS-NULL-or-comparison, so that
a null field constrains nothing.  It is stated here only to compare the
implemented predicate against the specified one. -/
def matchesSpec (f : Freight) (s : FreightSearch) : Bool :=
  (match s.pickup_code with | none => true | some c => c == f.pickup_code) &&
  (match s.delivery_code with | none => true | some c => c == f.delivery_code) &&
  (match s.min_price with | none => true | some p => decide (p ≤ f.price)) &&
  (match s.max_price with | none => true | some p => decide (f.price ≤ p)) &&
  (match s.pickup_date_from with | none => true | some d => decide (d ≤ f.pickup_date)) &&
  (match s.pickup_date_to with | none => true | some d => decide (f.pickup_date ≤ d)) &&
  (match s.delivery_date_from with | none => true | some d => decide (d ≤ f.delivery_date)) &&
  (match s.delivery_date_to with | none => true | some d => decide (f.delivery_date ≤ d))

/-- Sample freight, following the literal scenario of the spec. -/
def sampleFreight : Freight :=
  { id := 1, price := 300, pickup_code := 10100, delivery_code := 20100,
    pickup_date := 100, delivery_date := 101 }

/-- Freight search with every optional field null. -/
def allNullSearch : FreightSearch :=
  { id := 1, user_id := 1, min_price := none, max_price := none,
    pickup_code := none, delivery_code := none,
    pickup_date_from := none, pickup_date_to := none,
    delivery_date_from := none, delivery_date_to := none, created_at := 5 }

/-- Search whose only constraint is min_price, at the freight's exact
price. -/
def minPriceSearch : FreightSearch :=
  { allNullSearch with id := 2, min_price := some 300 }

/-- Search whose only constraint is max_price, at the freight's exact
price. -/
def maxPriceSearch : FreightSearch :=
  { allNullSearch with id := 3, max_price := some 300 }

/-- Search on the sample freight's route, hence a match, with a chosen id
and creation time. -/
def matchingSearch (i : Nat) (t : Int) : FreightSearch :=
  { allNullSearch with
    id := i,
    created_at := t,
    pickup_code := some 10100,
    delivery_code := some 20100 }

/-- Sample user. -/
def sampleUser : User :=
  { id := 1, name := "Ada", surname := "Lovelace", email := "ada" }

/-- Sample database with one freight and three matching searches. -/
def sampleDB : DB :=
  { users := [sampleUser], freights := [sampleFreight],
    searches := [matchingSearch 1 10, matchingSearch 2 20, matchingSearch 3 30] }

/-- Input whose price band is inverted. -/
def badRangeInput : SearchInput :=
  { user_id := 1, min_price := some 400, max_price := some 300,
    pickup_code := none, delivery_code := none,
    pickup_date_from := none, pickup_date_to := none,
    delivery_date_from := none, delivery_date_to := none }

/-- Valid input naming a user that does not exist. -/
def noUserInput : SearchInput :=
  { user_id := 99, min_price := none, max_price := none,
    pickup_code := none, delivery_code := none,
    pickup_date_from := none, pickup_date_to := none,
    delivery_date_from := none, delivery_date_to := none }

/-- Rows with pairwise distinct ids that are sorted for the output order
are strictly sorted. -/
lemma pairwise_fsLT_of_fsLE {l : List FreightSearch}
    (h1 : l.Pairwise fsLE) (h2 : l.Pairwise fun a b => a.id ≠ b.id) :
    l.Pairwise fsLT :=
  (h1.and h2).imp fun h => by
    rcases h with ⟨hle, hne⟩
    unfold fsLE at hle
    unfold fsLT
    omega

/-- Distinctness of ids survives sorting. -/
lemma pairwise_ne_insertionSort {l : List FreightSearch}
    (hids : l.Pairwise fun a b => a.id ≠ b.id) :
    (List.insertionSort fsLE l).Pairwise fun a b => a.id ≠ b.id :=
  ((List.perm_insertionSort fsLE l).pairwise_iff fun h => Ne.symm h).mpr hids

/-- With pairwise distinct ids the sorted list is strictly ordered. -/
lemma sort_pairwise_fsLT {l : List FreightSearch}
    (hids : l.Pairwise fun a b => a.id ≠ b.id) :
    (List.insertionSort fsLE l).Pairwise fsLT :=
  pairwise_fsLT_of_fsLE (List.sorted_insertionSort fsLE l) (pairwise_ne_insertionSort hids)

/-- Sorting commutes with filtering when ids are pairwise distinct. -/
lemma insertionSort_filter (p : FreightSearch → Bool) {l : List FreightSearch}
    (hids : l.Pairwise fun a b => a.id ≠ b.id) :
    List.insertionSort fsLE (l.filter p) = (List.insertionSort fsLE l).filter p := by
  have hperm : List.Perm (List.insertionSort fsLE (l.filter p))
      ((List.insertionSort fsLE l).filter p) :=
    (List.perm_insertionSort fsLE (l.filter p)).trans
      (((List.perm_insertionSort fsLE l).filter p).symm)
  have hs1 : (List.insertionSort fsLE (l.filter p)).Pairwise fsLT :=
    sort_pairwise_fsLT (hids.filter p)
  have hs2 : ((List.insertionSort fsLE l).filter p).Pairwise fsLT :=
    (sort_pairwise_fsLT hids).filter p
  exact List.eq_of_perm_of_sorted hperm hs1 hs2

/-- On the NOT NULL created_at and id columns the keyset condition is
two-valued: it holds exactly on rows strictly before the cursor. -/
lemma keyset_cond_isTrue_iff {ts : Int} {i : Nat} {s : FreightSearch} :
    (keyset_cond ts i s).isTrue = true ↔
      (s.created_at < ts ∨ (s.created_at = ts ∧ s.id < i)) := by
  by_cases h1 : s.created_at < ts <;> by_cases h2 : s.created_at = ts <;>
    by_cases h3 : s.id < i <;>
    simp [keyset_cond, sqlLt, sqlEq, SQLB.or, SQLB.and, SQLB.isTrue, h1, h2, h3]

/-- Splitting the WHERE clause of a cursor call: rows passing all conditions
are the matching rows that also pass the keyset condition. -/
lemma filter_conds_cursor (f : Freight) (ts : Int) (i : Nat)
    (searches : List FreightSearch) :
    (searches.filter fun s =>
        ((matchConds f ++ [keyset_cond ts i]).all fun c => (c s).isTrue))
      = (searches.filter (matchesRow f)).filter
          fun s => (keyset_cond ts i s).isTrue := by
  rw [List.filter_filter]
  apply List.filter_congr
  intro s _
  simp [matchesRow, Bool.and_comm]

/-- Evaluation of a cursor call: the keyset restriction applies first, then
the ordered result is paged by OFFSET and LIMIT. -/
lemma core_cursor_eq (f : Freight) {searches : List FreightSearch}
    (L off : Nat) (ts : Int) (i : Nat)
    (hids : searches.Pairwise fun a b => a.id ≠ b.id) :
    find_matches_core f searches L off (some ts) (some i) =
      (((sortedMatches f searches).filter
          fun s => (keyset_cond ts i s).isTrue).drop off).take L := by
  have h0 : find_matches_core f searches L off (some ts) (some i)
      = ((List.insertionSort fsLE (searches.filter fun s =>
          ((matchConds f ++ [keyset_cond ts i]).all fun c => (c s).isTrue))).drop off).take L :=
    rfl
  rw [h0, filter_conds_cursor, insertionSort_filter _ (hids.filter _)]
  rfl

/-- Evaluation of a cursorless call. -/
lemma core_none_eq (f : Freight) (searches : List FreightSearch) (L off : Nat) :
    find_matches_core f searches L off none none =
      ((sortedMatches f searches).drop off).take L :=
  rfl

/-- In a nonempty list that is pairwise related, every element is the last
one or is related to it. -/
lemma mem_rel_getLast {α : Type} {R : α → α → Prop} :
    ∀ {l : List α} (h : l ≠ []), l.Pairwise R → ∀ x ∈ l,
      x = l.getLast h ∨ R x (l.getLast h)
  | [], h, _, _, _ => absurd rfl h
  | [a], _, _, x, hx => by
    simp only [List.mem_singleton] at hx
    subst hx
    left
    rfl
  | a :: b :: t, _, hp, x, hx => by
    rcases List.mem_cons.mp hx with rfl | hx'
    · right
      rw [List.getLast_cons (List.cons_ne_nil b t)]
      exact (List.pairwise_cons.mp hp).1 _ (List.getLast_mem _)
    · rw [List.getLast_cons (List.cons_ne_nil b t)]
      exact mem_rel_getLast (List.cons_ne_nil b t) (List.pairwise_cons.mp hp).2 x hx'

/-- On a strictly ordered list split as pre ++ suf with pre nonempty, the
keyset condition at the last row of pre keeps exactly suf. -/
lemma filter_keyset_append {pre suf : List FreightSearch} (hne : pre ≠ [])
    (hsorted : (pre ++ suf).Pairwise fsLT) :
    ((pre ++ suf).filter fun s =>
        (keyset_cond (pre.getLast hne).created_at (pre.getLast hne).id s).isTrue) = suf := by
  obtain ⟨hpre, hsuf, hcross⟩ := List.pairwise_append.mp hsorted
  rw [List.filter_append]
  have h1 : (pre.filter fun s =>
      (keyset_cond (pre.getLast hne).created_at (pre.getLast hne).id s).isTrue) = [] := by
    rw [List.filter_eq_nil_iff]
    intro x hx
    rcases mem_rel_getLast hne hpre x hx with rfl | hlt
    · simp only [keyset_cond_isTrue_iff]
      omega
    · unfold fsLT at hlt
      simp only [keyset_cond_isTrue_iff]
      omega
  have h2 : (suf.filter fun s =>
      (keyset_cond (pre.getLast hne).created_at (pre.getLast hne).id s).isTrue) = suf := by
    rw [List.filter_eq_self]
    intro b hb
    have hlt := hcross _ (List.getLast_mem hne) b hb
    unfold fsLT at hlt
    simp only [keyset_cond_isTrue_iff]
    omega
  rw [h1, h2, List.nil_append]

/-- Invariant of the paging loop: when the sorted match list splits as
pre ++ suf and the cursor is absent (pre empty) or holds the key of the
last row of pre, the loop returns exactly suf, given enough fuel. -/
lemma paginate_eq_suffix (f : Freight) {searches : List FreightSearch} {L : Nat}
    (hL : 0 < L) (hids : searches.Pairwise fun a b => a.id ≠ b.id) :
    ∀ (fuel : Nat) (pre suf : List FreightSearch) (cur : Option (Int × Nat)),
      sortedMatches f searches = pre ++ suf →
      suf.length < fuel →
      ((pre = [] ∧ cur = none) ∨
        (∃ hne : pre ≠ [],
          cur = some ((pre.getLast hne).created_at, (pre.getLast hne).id))) →
      paginate f searches L fuel cur = suf := by
  intro fuel
  induction fuel with
  | zero =>
    intro pre suf cur _ hlen _
    omega
  | succ fuel ih =>
    intro pre suf cur hsplit hlen hcur
    have hsortLT : (pre ++ suf).Pairwise fsLT := by
      rw [← hsplit]
      exact sort_pairwise_fsLT (hids.filter _)
    have hrows : find_matches_core f searches L 0 (cur.map Prod.fst) (cur.map Prod.snd)
        = suf.take L := by
      rcases hcur with ⟨hpre, hcurv⟩ | ⟨hne, hcurv⟩
      · subst hcurv
        simp only [Option.map_none']
        rw [core_none_eq, List.drop_zero, hsplit, hpre, List.nil_append]
      · subst hcurv
        simp only [Option.map_some']
        rw [core_cursor_eq f L 0 _ _ hids, List.drop_zero, hsplit,
          filter_keyset_append hne hsortLT]
    simp only [paginate]
    rw [hrows]
    by_cases hshort : suf.length < L
    · have htake : suf.take L = suf := List.take_of_length_le (by omega)
      rw [htake]
      have hnc : nextCursor suf L = none := by
        unfold nextCursor
        rw [if_neg (by omega)]
      rw [hnc]
    · have hlen2 : (suf.take L).length = L := by
        rw [List.length_take]
        omega
      have hne2 : suf.take L ≠ [] := by
        intro h
        rw [h] at hlen2
        simp only [List.length_nil] at hlen2
        omega
      have hlastq := List.getLast?_eq_getLast (suf.take L) hne2
      have hnc : nextCursor (suf.take L) L
          = some (((suf.take L).getLast hne2).created_at, ((suf.take L).getLast hne2).id) := by
        unfold nextCursor
        rw [if_pos hlen2, hlastq]
        rfl
      rw [hnc]
      show suf.take L ++ paginate f searches L fuel
          (some (((suf.take L).getLast hne2).created_at, ((suf.take L).getLast hne2).id)) = suf
      have hsplit' : sortedMatches f searches = (pre ++ suf.take L) ++ suf.drop L := by
        rw [List.append_assoc, List.take_append_drop]
        exact hsplit
      have hne' : pre ++ suf.take L ≠ [] := by
        intro h
        rcases List.append_eq_nil.mp h with ⟨_, h2⟩
        exact hne2 h2
      have hlast' : (pre ++ suf.take L).getLast hne' = (suf.take L).getLast hne2 :=
        List.getLast_append_of_ne_nil hne2
      have hrec : paginate f searches L fuel
          (some (((suf.take L).getLast hne2).created_at, ((suf.take L).getLast hne2).id))
          = suf.drop L := by
        apply ih (pre ++ suf.take L) (suf.drop L) _ hsplit'
        · rw [List.length_drop]
          omega
        · right
          exact ⟨hne', by rw [hlast']⟩
      rw [hrec, List.take_append_drop]

/-- Boolean form of the keyset condition on NOT NULL columns. -/
lemma keyset_cond_isTrue_eq_decide (ts : Int) (i : Nat) (s : FreightSearch) :
    (keyset_cond ts i s).isTrue = decide (beforeKey s (ts, i)) := by
  by_cases h : beforeKey s (ts, i)
  · rw [decide_eq_true h]
    exact keyset_cond_isTrue_iff.mpr h
  · rw [decide_eq_false h]
    cases hb : (keyset_cond ts i s).isTrue with
    | false => rfl
    | true => exact absurd (keyset_cond_isTrue_iff.mp hb) h

/-- Every row of a page fetched with a complete cursor satisfies the
keyset condition, i.e. lies strictly before the cursor. -/
lemma core_cursor_mem_before {f : Freight} {searches : List FreightSearch}
    {L off : Nat} {ts : Int} {i : Nat} {s : FreightSearch}
    (hs : s ∈ find_matches_core f searches L off (some ts) (some i)) :
    s.created_at < ts ∨ (s.created_at = ts ∧ s.id < i) := by
  have hs' : s ∈ ((List.insertionSort fsLE (searches.filter fun x =>
      ((matchConds f ++ [keyset_cond ts i]).all fun c => (c x).isTrue))).drop off).take L := hs
  have h2 := List.mem_of_mem_drop (List.mem_of_mem_take hs')
  have h3 := ((List.perm_insertionSort fsLE _).mem_iff).mp h2
  have h4 := (List.mem_filter.mp h3).2
  simp only [List.all_append, List.all_cons, List.all_nil, Bool.and_true,
    Bool.and_eq_true] at h4
  exact keyset_cond_isTrue_iff.mp h4.2

/-- Every page is strictly ordered by (created_at, id) descending when the
store's ids are pairwise distinct. -/
lemma core_pairwise_fsLT (f : Freight) {searches : List FreightSearch}
    (L off : Nat) (bts : Option Int) (bid : Option Nat)
    (hids : searches.Pairwise fun a b => a.id ≠ b.id) :
    (find_matches_core f searches L off bts bid).Pairwise fsLT := by
  have key : ∀ (conds : List (FreightSearch → SQLB)),
      ((((List.insertionSort fsLE
        (searches.filter fun s => conds.all fun c => (c s).isTrue))).drop off).take L).Pairwise
        fsLT := by
    intro conds
    have h := sort_pairwise_fsLT (hids.filter fun s => conds.all fun c => (c s).isTrue)
    exact h.sublist ((List.take_sublist _ _).trans (List.drop_sublist _ _))
  cases bts with
  | none => cases bid with
    | none => exact key (matchConds f)
    | some i => exact key (matchConds f)
  | some ts => cases bid with
    | none => exact key (matchConds f)
    | some i => exact key (matchConds f ++ [keyset_cond ts i])

/-- Successful find_matches calls are the paged query on the resolved
freight together with the next-cursor computation. -/
lemma find_matches_ok {db : DB} {fid L off : Nat} {bts : Option Int}
    {bid : Option Nat} {rows : List FreightSearch} {next : Option (Int × Nat)}
    (h : find_matches db fid L off bts bid = .ok (rows, next)) :
    ∃ f, db.freights.find? (fun fr => fr.id == fid) = some f ∧
      rows = find_matches_core f db.searches L off bts bid ∧
      next = nextCursor rows L := by
  unfold find_matches at h
  cases hf : db.freights.find? (fun fr => fr.id == fid) with
  | none =>
    rw [hf] at h
    exact Except.noConfusion h
  | some f =>
    rw [hf] at h
    simp only [Except.ok.injEq, Prod.mk.injEq] at h
    obtain ⟨hr, hn⟩ := h
    refine ⟨f, rfl, hr.symm, ?_⟩
    rw [hr] at hn
    exact hn.symm

/-- Reading off a produced next cursor: the page was full and the cursor is
the key of its last row. -/
lemma nextCursor_eq_some {rows : List FreightSearch} {L : Nat} {c : Int × Nat}
    (h : nextCursor rows L = some c) :
    rows.length = L ∧ ∃ hne : rows ≠ [],
      c = ((rows.getLast hne).created_at, (rows.getLast hne).id) := by
  unfold nextCursor at h
  by_cases hl : rows.length = L
  · rw [if_pos hl] at h
    have hne : rows ≠ [] := by
      intro hnil
      subst hnil
      exact Option.noConfusion h
    refine ⟨hl, hne, ?_⟩
    rw [List.getLast?_eq_getLast _ hne] at h
    simp only [Option.map_some'] at h
    exact (Option.some.inj h).symm
  · rw [if_neg hl] at h
    exact Option.noConfusion h

/-- C1: contrary to the spec, a search with every optional field null is
NOT matched: the route clause is built as an IN-list containing a literal
NULL, which evaluates to UNKNOWN — never TRUE — on a NULL column, so the
WHERE clause drops the row.  The intended predicate (matchesSpec, taken
from the spec) accepts it, and find_matches returns no rows for a store
holding only this search. -/
theorem c1_all_null_search_is_dropped :
    matchesSpec sampleFreight allNullSearch = true ∧
    sqlIn allNullSearch.pickup_code [some sampleFreight.pickup_code, none] = SQLB.unk ∧
    matchesRow sampleFreight allNullSearch = false ∧
    find_matches_core sampleFreight [allNullSearch] 200 0 none none = [] :=
  ⟨rfl, rfl, rfl, rfl⟩

/-- C8: the price-band comparisons themselves are inclusive — both
conditions evaluate to TRUE at min_price = price and at max_price = price —
but the claim's searches (all other optional fields null) are nevertheless
not matched, because the route IN-list with a literal NULL drops every
search whose route fields are null. -/
theorem c8_boundary_price_dropped :
    ((price_conds sampleFreight).all fun c => (c minPriceSearch).isTrue) = true ∧
    ((price_conds sampleFreight).all fun c => (c maxPriceSearch).isTrue) = true ∧
    matchesRow sampleFreight minPriceSearch = false ∧
    matchesRow sampleFreight maxPriceSearch = false ∧
    find_matches_core sampleFreight [minPriceSearch, maxPriceSearch] 200 0 none none = [] :=
  ⟨rfl, rfl, rfl, rfl, rfl⟩

/-- C2: for a fixed freight and a store with pairwise distinct ids, paging
with any positive limit from no cursor and following the returned cursor
until a short page yields exactly the matching rows: a permutation of the
filtered store with no duplicates. -/
theorem c2_pagination_complete (f : Freight) (searches : List FreightSearch)
    (L : Nat) (hL : 0 < L)
    (hids : searches.Pairwise fun a b => a.id ≠ b.id) :
    List.Perm (paginate f searches L (searches.length + 1) none)
        (searches.filter (matchesRow f)) ∧
    (paginate f searches L (searches.length + 1) none).Nodup := by
  have hlen : (sortedMatches f searches).length < searches.length + 1 := by
    have h1 : (sortedMatches f searches).length
        = (searches.filter (matchesRow f)).length :=
      (List.perm_insertionSort fsLE _).length_eq
    have h2 := List.length_filter_le (matchesRow f) searches
    omega
  have hmain := paginate_eq_suffix f hL hids (searches.length + 1) []
    (sortedMatches f searches) none (by rw [List.nil_append]) hlen (Or.inl ⟨rfl, rfl⟩)
  rw [hmain]
  constructor
  · exact List.perm_insertionSort fsLE _
  · have hnd : (sortedMatches f searches).Pairwise fun a b => a.id ≠ b.id :=
      pairwise_ne_insertionSort (hids.filter _)
    exact hnd.imp fun h he => h (congrArg FreightSearch.id he)

/-- Witness for C2 on the sample store with limit 2. -/
theorem c2_pagination_complete_witness :
    List.Perm (paginate sampleFreight sampleDB.searches 2 (sampleDB.searches.length + 1) none)
        (sampleDB.searches.filter (matchesRow sampleFreight)) ∧
    (paginate sampleFreight sampleDB.searches 2 (sampleDB.searches.length + 1) none).Nodup :=
  c2_pagination_complete sampleFreight sampleDB.searches 2 (by decide) (by decide)

/-- C3: every row returned by a call carrying both cursor halves lies
strictly before the cursor in the (created_at, id) descending order. -/
theorem c3_only_rows_before_cursor (f : Freight) (searches : List FreightSearch)
    (L off : Nat) (ts : Int) (i : Nat) (s : FreightSearch)
    (hs : s ∈ find_matches_core f searches L off (some ts) (some i)) :
    s.created_at < ts ∨ (s.created_at = ts ∧ s.id < i) :=
  core_cursor_mem_before hs

/-- Witness for C3 on the sample store with cursor (25, 5). -/
theorem c3_only_rows_before_cursor_witness :
    (matchingSearch 2 20).created_at < 25 ∨
      ((matchingSearch 2 20).created_at = 25 ∧ (matchingSearch 2 20).id < 5) :=
  c3_only_rows_before_cursor sampleFreight sampleDB.searches 200 0 25 5
    (matchingSearch 2 20) (by decide)

/-- C4: a successful find_matches call produces the next-cursor headers
exactly when the page holds exactly limit rows, and they then carry the
(created_at, id) of the last row of the page. -/
theorem c4_next_cursor_iff_full (db : DB) (fid L off : Nat)
    (bts : Option Int) (bid : Option Nat) (rows : List FreightSearch)
    (next : Option (Int × Nat)) (hL : 0 < L)
    (h : find_matches db fid L off bts bid = .ok (rows, next)) :
    (rows.length = L →
      rows ≠ [] ∧ next = rows.getLast?.map fun last => (last.created_at, last.id)) ∧
    (rows.length ≠ L → next = none) := by
  obtain ⟨f, hf, hrows, hnext⟩ := find_matches_ok h
  constructor
  · intro hfull
    have hne : rows ≠ [] := by
      intro hnil
      rw [hnil] at hfull
      simp only [List.length_nil] at hfull
      omega
    refine ⟨hne, ?_⟩
    rw [hnext]
    unfold nextCursor
    rw [if_pos hfull]
  · intro hnf
    rw [hnext]
    unfold nextCursor
    rw [if_neg hnf]

/-- Witness for C4 on the sample store: a full page of limit 2 carries the
key of the page's last row as its cursor. -/
theorem c4_next_cursor_iff_full_witness :
    (some (20, 2) : Option (Int × Nat)) =
      ([matchingSearch 3 30, matchingSearch 2 20] : List FreightSearch).getLast?.map
        (fun last => (last.created_at, last.id)) :=
  ((c4_next_cursor_iff_full sampleDB 1 2 0 none none
    [matchingSearch 3 30, matchingSearch 2 20] (some (20, 2)) (by decide) (by rfl)).1
    (by decide)).2

/-- C5: with pairwise distinct ids, pages are strictly ordered by
(created_at, id) descending, and a page fetched with the cursor returned by
a previous page shares no row with that page. -/
theorem c5_page_order_and_disjoint (db : DB) (fid L off off2 : Nat)
    (bts : Option Int) (bid : Option Nat)
    (rows1 rows2 : List FreightSearch) (ts2 : Int) (i2 : Nat)
    (next2 : Option (Int × Nat))
    (hids : db.searches.Pairwise fun a b => a.id ≠ b.id)
    (h1 : find_matches db fid L off bts bid = .ok (rows1, some (ts2, i2)))
    (h2 : find_matches db fid L off2 (some ts2) (some i2) = .ok (rows2, next2)) :
    rows1.Pairwise fsLT ∧ rows2.Pairwise fsLT ∧ rows1.Disjoint rows2 := by
  obtain ⟨f, hf, hr1, hn1⟩ := find_matches_ok h1
  obtain ⟨f', hf', hr2, hn2⟩ := find_matches_ok h2
  have hff : f = f' := by
    rw [hf] at hf'
    exact Option.some.inj hf'
  subst hff
  have hpair1 : rows1.Pairwise fsLT := by
    rw [hr1]
    exact core_pairwise_fsLT f L off bts bid hids
  have hpair2 : rows2.Pairwise fsLT := by
    rw [hr2]
    exact core_pairwise_fsLT f L off2 (some ts2) (some i2) hids
  refine ⟨hpair1, hpair2, ?_⟩
  obtain ⟨hfull, hne, hkey⟩ := nextCursor_eq_some hn1.symm
  injection hkey with hts hi
  intro x hx1 hx2
  have hbefore : x.created_at < ts2 ∨ (x.created_at = ts2 ∧ x.id < i2) := by
    rw [hr2] at hx2
    exact core_cursor_mem_before hx2
  rcases mem_rel_getLast hne hpair1 x hx1 with rfl | hlt
  · rw [hts, hi] at hbefore
    omega
  · unfold fsLT at hlt
    rw [hts, hi] at hbefore
    omega

/-- Witness for C5 on the sample store: page one of limit 2 and the page
fetched with its cursor. -/
theorem c5_page_order_and_disjoint_witness :
    ([matchingSearch 3 30, matchingSearch 2 20] : List FreightSearch).Pairwise fsLT ∧
    ([matchingSearch 1 10] : List FreightSearch).Pairwise fsLT ∧
    ([matchingSearch 3 30, matchingSearch 2 20] : List FreightSearch).Disjoint
      [matchingSearch 1 10] :=
  c5_page_order_and_disjoint sampleDB 1 2 0 0 none none
    [matchingSearch 3 30, matchingSearch 2 20] [matchingSearch 1 10] 20 2 none
    (by decide) (by rfl) (by rfl)

/-- C6: find_matches fails with NotFound exactly when the freight id does
not resolve (and then carries no rows); when it resolves, the call does not
fail with NotFound. -/
theorem c6_not_found_iff (db : DB) (fid L off : Nat)
    (bts : Option Int) (bid : Option Nat) :
    find_matches db fid L off bts bid = .error .notFound ↔
      db.freights.find? (fun fr => fr.id == fid) = none := by
  unfold find_matches
  cases hf : db.freights.find? (fun fr => fr.id == fid) with
  | none => simp
  | some f => simp

/-- C7: create-search rejects an invariant violation with InvalidArgument,
and an unknown user on an otherwise valid input with NotFound; every
failure leaves the store unchanged. -/
theorem c7_create_search_failures (db : DB) (inp : SearchInput)
    (newId : Nat) (now : Int) :
    (violatesInvariant inp = true →
      create_freight_search db inp newId now = (.error .invalidArgument, db)) ∧
    (violatesInvariant inp = false →
      db.users.find? (fun u => u.id == inp.user_id) = none →
      create_freight_search db inp newId now = (.error .notFound, db)) ∧
    (∀ e, (create_freight_search db inp newId now).1 = .error e →
      (create_freight_search db inp newId now).2 = db) := by
  refine ⟨?_, ?_, ?_⟩
  · intro hv
    unfold create_freight_search
    rw [if_pos hv]
  · intro hv hu
    unfold create_freight_search
    rw [if_neg (by rw [hv]; exact Bool.false_ne_true), hu]
  · intro e he
    unfold create_freight_search at he ⊢
    by_cases hv : violatesInvariant inp = true
    · rw [if_pos hv]
    · rw [if_neg hv] at he ⊢
      cases hu : db.users.find? (fun u => u.id == inp.user_id) with
      | none => rfl
      | some u =>
        rw [hu] at he
        simp at he

/-- Witness for C7: an inverted price band and an unknown user, both
rejected with the store unchanged. -/
theorem c7_create_search_failures_witness :
    create_freight_search sampleDB badRangeInput 7 70 = (.error .invalidArgument, sampleDB) ∧
    create_freight_search sampleDB noUserInput 7 70 = (.error .notFound, sampleDB) :=
  ⟨(c7_create_search_failures sampleDB badRangeInput 7 70).1 (by decide),
   (c7_create_search_failures sampleDB noUserInput 7 70).2.1 (by decide) (by rfl)⟩

/-- C9: a single cursor half is ignored: the call returns exactly what the
cursorless call returns. -/
theorem c9_one_sided_cursor_ignored (db : DB) (fid L off : Nat)
    (ts : Int) (i : Nat) :
    find_matches db fid L off (some ts) none = find_matches db fid L off none none ∧
    find_matches db fid L off none (some i) = find_matches db fid L off none none :=
  ⟨rfl, rfl⟩

/-- C10: with both a complete cursor and an offset, the keyset condition
restricts the candidate set and the offset then skips rows of that
restricted ordered result before the limit applies. -/
theorem c10_offset_after_cursor (f : Freight) (searches : List FreightSearch)
    (L off : Nat) (ts : Int) (i : Nat)
    (hids : searches.Pairwise fun a b => a.id ≠ b.id) :
    find_matches_core f searches L off (some ts) (some i) =
      (((sortedMatches f searches).filter
          fun s => decide (beforeKey s (ts, i))).drop off).take L := by
  rw [core_cursor_eq f L off ts i hids]
  have hfc : ((sortedMatches f searches).filter fun s => (keyset_cond ts i s).isTrue)
      = ((sortedMatches f searches).filter fun s => decide (beforeKey s (ts, i))) :=
    List.filter_congr fun s _ => keyset_cond_isTrue_eq_decide ts i s
  rw [hfc]

/-- Witness for C10 on the sample store with offset 1 and limit 1. -/
theorem c10_offset_after_cursor_witness :
    find_matches_core sampleFreight sampleDB.searches 1 1 (some 35) (some 9) =
      (((sortedMatches sampleFreight sampleDB.searches).filter
          fun s => decide (beforeKey s (35, 9))).drop 1).take 1 :=
  c10_offset_after_cursor sampleFreight sampleDB.searches 1 1 35 9 (by decide)

end FTC
